import Mathlib

/-!
Verification of the NeuroHackademy curriculum notebooks.

This file gives a shallow embedding of the small pieces of original logic in
the repository's notebooks — the `ls` path helper, the cache-directory
creation cells, the fixed path and credential conventions, the manual k-fold
cross-validation loop, the PCA cumulative-variance curve, and the gradient
descent demonstration — and proves the stated properties about them.
-/

namespace Curriculum

/-! ## The `ls` helper (pathlib notebook)

The notebook defines:

```python
def ls(path):
    "Lists the contents of the given path."
    # If path is not a directory, raise an error:
    if not path.is_dir():
        raise ValueError(f"Path ... is not a directory")
    else:
        return list(path.iterdir())
```

A path object is modelled by what `ls` observes of it: whether `is_dir()`
holds, the list returned by `iterdir()`, and its display name.
-/

structure PathObj where
  name : String
  isDir : Bool
  children : List String
deriving DecidableEq

/-- Errors raised by notebook code.  The only error any notebook constructs
itself is the `ValueError` in `ls`. -/
inductive NotebookError where
  | valueError (msg : String)
deriving DecidableEq

/-- Where an error object was constructed: by code written in the notebooks
themselves, or inside an imported library. -/
inductive ErrorOrigin where
  | notebookAuthored
  | underlyingLibrary
deriving DecidableEq

/-- The `ValueError` in `ls` is built by a `raise` statement written in the
notebook, not by an imported library. -/
def errorOrigin : NotebookError → ErrorOrigin
  | .valueError _ => .notebookAuthored

/-- The `ls` helper from the pathlib notebook: raise `ValueError` when the
path is not a directory, otherwise return the directory listing. -/
def ls (path : PathObj) : Except NotebookError (List String) :=
  if !path.isDir then
    .error (.valueError ("Path " ++ path.name ++ " is not a directory"))
  else
    .ok path.children

/-- A concrete non-directory path (the README file written by the cache
notebook). -/
def readmePath : PathObj := ⟨"/tmp/cache/README.md", false, []⟩

/-- A concrete directory path with one entry. -/
def cacheDirPath : PathObj := ⟨"/tmp/cache", true, ["/tmp/cache/README.md"]⟩

/-! ## Cache-directory creation

Several notebooks run the cell

```python
cache_path = Path('/tmp/cache')
if not cache_path.exists():
    cache_path.mkdir()
```

The filesystem is modelled as the list of existing paths; `mkdir` fails with
`FileExistsError` exactly when the path already exists, and otherwise adds
the path.  The guarded cell is `ensureCacheDir`.
-/

def cachePathStr : String := "/tmp/cache"

inductive FsError where
  | fileExists (path : String)
deriving DecidableEq

/-- The filesystem as the set of existing paths (directories and the files
they contain). -/
abbrev FileSystem := List String

def pathExists (p : String) (fs : FileSystem) : Bool :=
  fs.contains p

/-- `Path.mkdir()`: raises `FileExistsError` when the path exists, otherwise
creates it. -/
def mkdir (p : String) (fs : FileSystem) : Except FsError FileSystem :=
  if pathExists p fs then .error (.fileExists p) else .ok (p :: fs)

/-- The guarded cache-creation cell: `if not cache_path.exists():
cache_path.mkdir()`. -/
def ensureCacheDir (fs : FileSystem) : Except FsError FileSystem :=
  if !(pathExists cachePathStr fs) then mkdir cachePathStr fs else .ok fs

/-! ## Fixed path and credential conventions

Each record below transcribes one configuration statement from the source
notebooks: every place a local download-cache directory is configured
(either as `cloudpathlib`'s `local_cache_dir` or as neuropythy's
`data_cache_root`), every load of the shared ABIDE-II table, and every
`S3Client` construction with its bucket and authentication mode.
-/

inductive CacheSetting where
  | cloudpathlibLocalCacheDir
  | neuropythyDataCacheRoot
deriving DecidableEq

structure CacheConfig where
  notebook : String
  setting : CacheSetting
  dir : String
deriving DecidableEq

/-- Every cache-directory configuration appearing in the notebooks. -/
def cacheConfigs : List CacheConfig :=
  [⟨"unnamed/part_000", .neuropythyDataCacheRoot, "/tmp/cache"⟩,
   ⟨"unnamed/part_001", .cloudpathlibLocalCacheDir, "/tmp/cache"⟩,
   ⟨"unnamed/part_003", .cloudpathlibLocalCacheDir, "/tmp/cache"⟩,
   ⟨"unnamed/part_004", .cloudpathlibLocalCacheDir, "/tmp/cache"⟩,
   ⟨"unnamed/part_004", .neuropythyDataCacheRoot, "/tmp/cache"⟩,
   ⟨"unnamed/part_005", .cloudpathlibLocalCacheDir, "/tmp/cache"⟩,
   ⟨"unnamed/part_005", .neuropythyDataCacheRoot, "/tmp/cache"⟩,
   ⟨"rokem-ml/03-overfitting", .cloudpathlibLocalCacheDir, "/tmp/cache"⟩,
   ⟨"rokem-benson-datashowcase/003-hcp-diffusion", .cloudpathlibLocalCacheDir, "/tmp/cache"⟩,
   ⟨"rokem-benson-datashowcase/003-hcp-diffusion", .cloudpathlibLocalCacheDir, "/tmp/cache"⟩]

structure TabularLoad where
  notebook : String
  path : String
  sep : String
deriving DecidableEq

/-- Every `pd.read_csv` load of the shared ABIDE-II dataset. -/
def abideLoads : List TabularLoad :=
  [⟨"rokem-ml/01-preliminaries", "/home/jovyan/shared/data/abide2/abide2.tsv", "\t"⟩,
   ⟨"rokem-ml/06-dimensionality-reduction", "/home/jovyan/shared/data/abide2/abide2.tsv", "\t"⟩,
   ⟨"unnamed/part_002", "/home/jovyan/shared/data/abide2/abide2.tsv", "\t"⟩,
   ⟨"unnamed/part_006", "/home/jovyan/shared/data/abide2/abide2.tsv", "\t"⟩]

/-- Authentication mode passed to a `cloudpathlib.S3Client`. -/
inductive S3Auth where
  | profile (name : String)
  | noSignRequest
deriving DecidableEq

structure S3ClientUse where
  notebook : String
  bucket : String
  auth : S3Auth
deriving DecidableEq

/-- Every `S3Client` construction in the notebooks, with the bucket of the
`S3Path` built on it and its authentication mode. -/
def s3ClientUses : List S3ClientUse :=
  [⟨"unnamed/part_001", "hcp-openaccess", .profile "hcp"⟩,
   ⟨"unnamed/part_003", "natural-scenes-dataset", .noSignRequest⟩,
   ⟨"unnamed/part_004", "natural-scenes-dataset", .noSignRequest⟩,
   ⟨"unnamed/part_005", "openneuro.org", .noSignRequest⟩,
   ⟨"rokem-ml/03-overfitting", "fcp-indi", .noSignRequest⟩,
   ⟨"rokem-benson-datashowcase/003-hcp-diffusion", "hcp-openaccess", .profile "hcp"⟩,
   ⟨"rokem-benson-datashowcase/003-hcp-diffusion", "open-neurodata", .noSignRequest⟩]

/-- The HCP retinotopy notebook configures neuropythy's HCP credentials from
the named profile via `load_aws_credentials` applied to this profile name. -/
def neuropythyHcpProfile : String := "hcp"

/-! ## PCA cumulative variance curve

The dimensionality-reduction notebook plots
`np.cumsum(pca.explained_variance_ratio_)`.  `cumsum` is the prefix-sum of a
list; the library's explained-variance shares are abstracted as any list of
rationals. -/

/-- Prefix sums, as computed by `np.cumsum`. -/
def cumsum : List ℚ → List ℚ
  | [] => []
  | x :: xs => x :: (cumsum xs).map (fun y => x + y)

/-- The cumulative-variance curve the notebook plots is exactly `np.cumsum`
applied to the explained-variance shares. -/
def cumVarianceCurve (shares : List ℚ) : List ℚ :=
  cumsum shares

/-! ## The gradient descent demonstration (PyTorch notebook)

The notebook minimizes `func(x) = (x - 2)**2` starting from `x = 5.0` with
`torch.optim.SGD([x], lr=0.1)` for 40 steps. -/

/-- The function being minimized: `func(x) = (x - 2)**2`. -/
def func (x : ℚ) : ℚ := (x - 2) ^ 2

/-- The learning rate passed to the optimizer. -/
def lr : ℚ := 1 / 10

/-- Modelled from the spec: the derivative of `func` that PyTorch's autograd
computes for `y.backward()`; d/dx (x - 2)^2 = 2 * (x - 2). -/
def dfunc (x : ℚ) : ℚ := 2 * (x - 2)

/-- Modelled from the spec: one step of `torch.optim.SGD` (no momentum),
which updates `x := x - lr * grad`. -/
def sgdStep (x : ℚ) : ℚ := x - lr * dfunc x

/-- The iterate after `n` optimizer steps, starting from `x = 5.0`. -/
def sgdIter : Nat → ℚ
  | 0 => 5
  | n + 1 => sgdStep (sgdIter n)

/-! ## The manual k-fold cross-validation loop (validation notebook)

The notebook builds a shuffled index list `inds = shuffle(list(range(n)))`
and, for each fold `k < K`,

```python
train = [x for (i, x) in enumerate(inds) if i % K != k]
test = list(set(inds) - set(train))
```

`trainFold` is the list comprehension verbatim; `testFold` keeps exactly the
members of `inds` outside `train` (a Python set difference is unordered, so
only its members matter; the subsequence of `inds` with those members is
used as its representative). -/

/-- Number of folds. -/
def K : Nat := 5

/-- The training indices of fold `k`: the entries of `inds` at positions `i`
with `i % K ≠ k`. -/
def trainFold (inds : List Nat) (k : Nat) : List Nat :=
  (inds.enum.filter (fun p => decide (p.1 % K ≠ k))).map Prod.snd

/-- The test indices of fold `k`: `list(set(inds) - set(train))`. -/
def testFold (inds : List Nat) (k : Nat) : List Nat :=
  inds.filter (fun x => decide (x ∉ trainFold inds k))

/-! ## The library replacement: `cross_val_score(est, X_small, y, cv=K)`

The notebook replaces the loop with this one-line call. -/

/-- Modelled from the spec: with an integer `cv=K`, `cross_val_score`
"interprets integers as the number of folds to use in a k-folds
partitioning" of the `n` row indices `0..n-1`; the folds are K contiguous
blocks, the first `n % K` of size `n / K + 1` and the rest of size
`n / K`.  `kfoldSize n k` is the size of block `k`. -/
def kfoldSize (n k : Nat) : Nat :=
  n / K + if k < n % K then 1 else 0

/-- Modelled from the spec: the first index of contiguous block `k` (each
block starts where the previous one ends). -/
def kfoldStart (n : Nat) : Nat → Nat
  | 0 => 0
  | k + 1 => kfoldStart n k + kfoldSize n k

/-- Modelled from the spec: the test indices of library fold `k`, the
contiguous block `[kfoldStart n k, kfoldStart n k + kfoldSize n k)`. -/
def kfoldTest (n k : Nat) : List Nat :=
  (List.range (kfoldSize n k)).map (fun j => kfoldStart n k + j)

/-- Modelled from the spec: the training indices of library fold `k`, all
remaining row indices. -/
def kfoldTrain (n k : Nat) : List Nat :=
  (List.range n).filter (fun x => decide (x ∉ kfoldTest n k))

/-- The per-fold scores of the manual loop: for each `k < K`, fit on
`trainFold`, score on `testFold` (`score` abstracts
`est.fit(X_train, y_train); est.score(X_test, y_test)` as a function of the
selected row indices). -/
def manualFoldScores {α : Type} (score : List Nat → List Nat → α)
    (inds : List Nat) : List α :=
  (List.range K).map (fun k => score (trainFold inds k) (testFold inds k))

/-- Modelled from the spec: the per-fold scores `cross_val_score` returns,
one score per library fold. -/
def crossValScores {α : Type} (score : List Nat → List Nat → α)
    (n : Nat) : List α :=
  (List.range K).map (fun k => score (kfoldTrain n k) (kfoldTest n k))

/-- The particular shuffle outcome under which the manual loop's strided
folds coincide with the library's contiguous blocks: position `i` of the
shuffled list holds the `(i / K)`-th element of block `i % K`. -/
def stridedShuffle (n : Nat) : List Nat :=
  (List.range n).map (fun i => kfoldStart n (i % K) + i / K)

/-! # Theorems -/

/-- C4: the `ls` helper is a thin wrapper around directory listing: when
`path.is_dir()` holds it returns exactly `list(path.iterdir())`, and when it
does not, it raises a `ValueError` (returning nothing). -/
theorem ls_spec (p : PathObj) :
    (p.isDir = true → ls p = .ok p.children) ∧
    (p.isDir = false →
      ls p = .error (.valueError ("Path " ++ p.name ++ " is not a directory"))) := by
  constructor <;> intro h <;> simp [ls, h]

/-- Witness for `ls_spec`: a concrete directory and a concrete
non-directory. -/
theorem ls_spec_witness :
    (cacheDirPath.isDir = true ∧ ls cacheDirPath = .ok cacheDirPath.children) ∧
    (readmePath.isDir = false ∧
      ls readmePath =
        .error (.valueError ("Path " ++ readmePath.name ++ " is not a directory"))) :=
  ⟨⟨rfl, (ls_spec cacheDirPath).1 rfl⟩, ⟨rfl, (ls_spec readmePath).2 rfl⟩⟩

/-- C3 counterexample: applied to a non-directory path, `ls` raises an error
that notebook code itself constructed (`raise ValueError(...)`), so it is not
true that every escaping error originates in an underlying library. -/
theorem ls_raises_notebook_authored_error :
    ls readmePath =
      .error (.valueError "Path /tmp/cache/README.md is not a directory") ∧
    errorOrigin (.valueError "Path /tmp/cache/README.md is not a directory") =
      .notebookAuthored :=
  ⟨rfl, rfl⟩

/-- C3 amended: the one error the notebooks construct themselves is the
`ValueError` in `ls`; every error escaping `ls` is that notebook-authored
`ValueError`, raised exactly on non-directory inputs. -/
theorem ls_escaping_error_characterization (p : PathObj) (e : NotebookError)
    (h : ls p = .error e) :
    errorOrigin e = .notebookAuthored ∧ p.isDir = false ∧
    e = .valueError ("Path " ++ p.name ++ " is not a directory") := by
  cases hd : p.isDir <;> simp [ls, hd] at h
  exact ⟨h ▸ rfl, rfl, h.symm⟩

/-- Witness for `ls_escaping_error_characterization` at the concrete README
path. -/
theorem ls_escaping_error_characterization_witness :
    errorOrigin (.valueError "Path /tmp/cache/README.md is not a directory") =
      .notebookAuthored ∧
    readmePath.isDir = false ∧
    (NotebookError.valueError "Path /tmp/cache/README.md is not a directory") =
      .valueError ("Path " ++ readmePath.name ++ " is not a directory") :=
  ls_escaping_error_characterization readmePath _ rfl

/-- C9: the guarded cache-creation cell never reaches `mkdir`'s
`FileExistsError` branch, leaves an already-existing cache directory (and the
rest of the filesystem) unchanged, and is idempotent. -/
theorem ensure_cache_dir_safe (fs : FileSystem) :
    (∃ fs2, ensureCacheDir fs = .ok fs2 ∧ pathExists cachePathStr fs2 = true) ∧
    (pathExists cachePathStr fs = true → ensureCacheDir fs = .ok fs) ∧
    (∀ fs2, ensureCacheDir fs = .ok fs2 → ensureCacheDir fs2 = .ok fs2) := by
  by_cases h : pathExists cachePathStr fs
  · have hok : ensureCacheDir fs = .ok fs := by simp [ensureCacheDir, h]
    refine ⟨⟨fs, hok, h⟩, fun _ => hok, fun fs2 h2 => ?_⟩
    rw [hok] at h2
    cases h2
    exact hok
  · have hb : pathExists cachePathStr fs = false := by simpa using h
    have hmk : ensureCacheDir fs = .ok (cachePathStr :: fs) := by
      simp [ensureCacheDir, mkdir, hb]
    have hex : pathExists cachePathStr (cachePathStr :: fs) = true := by
      simp [pathExists]
    refine ⟨⟨cachePathStr :: fs, hmk, hex⟩, fun hc => ?_, fun fs2 h2 => ?_⟩
    · rw [hb] at hc
      cases hc
    · rw [hmk] at h2
      cases h2
      simp [ensureCacheDir, hex]

/-- Witness for `ensure_cache_dir_safe` on concrete filesystems. -/
theorem ensure_cache_dir_safe_witness :
    (pathExists cachePathStr [cachePathStr] = true ∧
      ensureCacheDir [cachePathStr] = .ok [cachePathStr]) ∧
    (ensureCacheDir ([] : FileSystem) = .ok [cachePathStr] ∧
      ensureCacheDir [cachePathStr] = .ok [cachePathStr]) :=
  ⟨⟨by decide, (ensure_cache_dir_safe [cachePathStr]).2.1 (by decide)⟩,
   ⟨rfl, (ensure_cache_dir_safe ([] : FileSystem)).2.2 [cachePathStr] rfl⟩⟩

/-- C5: every cache-directory configuration in the notebooks points at
`/tmp/cache`, and every load of the shared ABIDE-II table uses the fixed
path with tab as separator. -/
theorem fixed_path_conventions :
    (∀ c ∈ cacheConfigs, c.dir = "/tmp/cache") ∧
    (∀ l ∈ abideLoads,
      l.path = "/home/jovyan/shared/data/abide2/abide2.tsv" ∧ l.sep = "\t") := by
  decide

/-- Witness for `fixed_path_conventions` at concrete entries. -/
theorem fixed_path_conventions_witness :
    ((⟨"unnamed/part_001", .cloudpathlibLocalCacheDir, "/tmp/cache"⟩ : CacheConfig) ∈
        cacheConfigs ∧
      (CacheConfig.dir
        ⟨"unnamed/part_001", .cloudpathlibLocalCacheDir, "/tmp/cache"⟩) = "/tmp/cache") ∧
    ((⟨"unnamed/part_006", "/home/jovyan/shared/data/abide2/abide2.tsv", "\t"⟩ :
        TabularLoad) ∈ abideLoads ∧
      (TabularLoad.path
        ⟨"unnamed/part_006", "/home/jovyan/shared/data/abide2/abide2.tsv", "\t"⟩) =
          "/home/jovyan/shared/data/abide2/abide2.tsv") :=
  ⟨⟨by decide, fixed_path_conventions.1 _ (by decide)⟩,
   ⟨by decide, (fixed_path_conventions.2 _ (by decide)).1⟩⟩

/-- C6: every client for the HCP bucket uses the named profile `hcp`; every
client for the NSD and OpenNeuro buckets uses `no_sign_request=True`; both
kinds of access actually occur, and the neuropythy HCP credentials are
likewise loaded from the `hcp` profile. -/
theorem s3_credential_conventions :
    (∀ c ∈ s3ClientUses, c.bucket = "hcp-openaccess" → c.auth = .profile "hcp") ∧
    (∀ c ∈ s3ClientUses,
      (c.bucket = "natural-scenes-dataset" ∨ c.bucket = "openneuro.org") →
        c.auth = .noSignRequest) ∧
    (∃ c ∈ s3ClientUses, c.bucket = "hcp-openaccess") ∧
    (∃ c ∈ s3ClientUses, c.bucket = "natural-scenes-dataset") ∧
    (∃ c ∈ s3ClientUses, c.bucket = "openneuro.org") ∧
    neuropythyHcpProfile = "hcp" := by
  decide

/-- Witness for `s3_credential_conventions` at concrete client uses. -/
theorem s3_credential_conventions_witness :
    (S3ClientUse.auth ⟨"unnamed/part_001", "hcp-openaccess", .profile "hcp"⟩ =
      .profile "hcp") ∧
    (S3ClientUse.auth ⟨"unnamed/part_005", "openneuro.org", .noSignRequest⟩ =
      .noSignRequest) :=
  ⟨s3_credential_conventions.1 _ (by decide) rfl,
   s3_credential_conventions.2.1 _ (by decide) (Or.inr rfl)⟩

/-- Every prefix sum of a list of nonnegative rationals is at most the full
sum. -/
theorem cumsum_le_sum (l : List ℚ) (h0 : ∀ r ∈ l, 0 ≤ r) :
    ∀ v ∈ cumsum l, v ≤ l.sum := by
  induction l with
  | nil => simp [cumsum]
  | cons x xs ih =>
    intro v hv
    simp only [cumsum, List.mem_cons, List.mem_map] at hv
    have hs : 0 ≤ xs.sum :=
      List.sum_nonneg (fun r hr => h0 r (List.mem_cons_of_mem _ hr))
    rcases hv with rfl | ⟨c, hc, rfl⟩
    · simp only [List.sum_cons]
      linarith
    · have := ih (fun r hr => h0 r (List.mem_cons_of_mem _ hr)) c hc
      simp only [List.sum_cons]
      linarith

/-- The prefix sums of a list of nonnegative rationals are nondecreasing. -/
theorem cumsum_chain (l : List ℚ) (h0 : ∀ r ∈ l, 0 ≤ r) :
    List.Chain' (· ≤ ·) (cumsum l) := by
  induction l with
  | nil => simp [cumsum]
  | cons x xs ih =>
    have hxs := ih (fun r hr => h0 r (List.mem_cons_of_mem _ hr))
    rw [cumsum, List.chain'_cons']
    constructor
    · intro z hz
      cases xs with
      | nil => simp [cumsum] at hz
      | cons y ys =>
        rw [cumsum] at hz
        simp only [List.map_cons, List.head?_cons, Option.mem_def,
          Option.some.injEq] at hz
        have hy : 0 ≤ y := h0 y (by simp)
        rw [← hz]
        linarith
    · exact (List.chain'_map _).2 (hxs.imp (fun a b hab => add_le_add_left hab x))

/-- C7: the plotted cumulative-variance curve is exactly `np.cumsum` of the
explained-variance shares, and for nonnegative shares summing to at most 1
it is nondecreasing and bounded above by 1. -/
theorem cum_variance_curve_monotone_bounded (shares : List ℚ)
    (h0 : ∀ r ∈ shares, 0 ≤ r) (h1 : shares.sum ≤ 1) :
    cumVarianceCurve shares = cumsum shares ∧
    List.Chain' (· ≤ ·) (cumVarianceCurve shares) ∧
    ∀ v ∈ cumVarianceCurve shares, v ≤ 1 :=
  ⟨rfl, cumsum_chain shares h0,
   fun v hv => le_trans (cumsum_le_sum shares h0 v hv) h1⟩

/-- Witness for `cum_variance_curve_monotone_bounded` at a concrete share
vector. -/
theorem cum_variance_curve_monotone_bounded_witness :
    ((∀ r ∈ [(1 : ℚ)/4, 1/2, 1/8], 0 ≤ r) ∧ ([(1 : ℚ)/4, 1/2, 1/8].sum ≤ 1)) ∧
    (cumVarianceCurve [(1 : ℚ)/4, 1/2, 1/8] = cumsum [(1 : ℚ)/4, 1/2, 1/8] ∧
     List.Chain' (· ≤ ·) (cumVarianceCurve [(1 : ℚ)/4, 1/2, 1/8]) ∧
     ∀ v ∈ cumVarianceCurve [(1 : ℚ)/4, 1/2, 1/8], v ≤ 1) :=
  ⟨⟨by norm_num, by norm_num⟩,
   cum_variance_curve_monotone_bounded [(1 : ℚ)/4, 1/2, 1/8] (by norm_num) (by norm_num)⟩

/-- C10: every optimizer step performs the exact update
`x := x - 0.1 * 2 * (x - 2) = 0.8 * x + 0.4`; the signed distance to the
minimizer satisfies `x_n - 2 = 3 * 0.8^n`, so the absolute distance
contracts by a factor `0.8` at every step, and the loss `func x_n` strictly
decreases at every step. -/
theorem sgd_exact_update_contraction_descent :
    (∀ x : ℚ, sgdStep x = x - 1/10 * (2 * (x - 2))) ∧
    (∀ x : ℚ, sgdStep x = 4/5 * x + 2/5) ∧
    (∀ n : ℕ, sgdIter n - 2 = 3 * (4/5) ^ n) ∧
    (∀ n : ℕ, |sgdIter (n + 1) - 2| = 4/5 * |sgdIter n - 2|) ∧
    (∀ n : ℕ, func (sgdIter (n + 1)) < func (sgdIter n)) := by
  have h1 : ∀ x : ℚ, sgdStep x = 4/5 * x + 2/5 := by
    intro x
    unfold sgdStep dfunc lr
    ring
  have h2 : ∀ n : ℕ, sgdIter n - 2 = 3 * (4/5) ^ n := by
    intro n
    induction n with
    | zero => norm_num [sgdIter]
    | succ m ih =>
      show sgdStep (sgdIter m) - 2 = 3 * (4/5) ^ (m + 1)
      rw [h1, pow_succ]
      linarith
  have hstep : ∀ n : ℕ, sgdIter (n + 1) - 2 = 4/5 * (sgdIter n - 2) := by
    intro n
    rw [h2 n, h2 (n + 1), pow_succ]
    ring
  refine ⟨fun x => by unfold sgdStep dfunc lr; ring, h1, h2, fun n => ?_, fun n => ?_⟩
  · rw [hstep n, abs_mul]
    norm_num
  · have hd : 0 < sgdIter n - 2 := by
      rw [h2 n]
      positivity
    show (sgdIter (n + 1) - 2) ^ 2 < (sgdIter n - 2) ^ 2
    rw [hstep n]
    nlinarith [mul_pos hd hd]


/-! ### k-fold lemmas -/

theorem mem_trainFold {inds : List Nat} {k x : Nat} :
    x ∈ trainFold inds k ↔ ∃ i : Nat, inds[i]? = some x ∧ i % K ≠ k := by
  unfold trainFold
  simp only [List.mem_map, List.mem_filter, decide_eq_true_eq]
  constructor
  · rintro ⟨⟨i, y⟩, ⟨hmem, hik⟩, rfl⟩
    exact ⟨i, List.mk_mem_enum_iff_getElem?.1 hmem, hik⟩
  · rintro ⟨i, hget, hik⟩
    exact ⟨(i, x), ⟨List.mk_mem_enum_iff_getElem?.2 hget, hik⟩, rfl⟩

theorem trainFold_sublist (inds : List Nat) (k : Nat) :
    List.Sublist (trainFold inds k) inds := by
  have h2 := (List.filter_sublist (l := inds.enum)
    (p := fun p => decide (p.1 % K ≠ k))).map Prod.snd
  rwa [List.enum_map_snd] at h2

theorem testFold_sublist (inds : List Nat) (k : Nat) :
    List.Sublist (testFold inds k) inds :=
  List.filter_sublist inds

theorem not_mem_trainFold_of_mem_testFold {inds : List Nat} {k x : Nat}
    (h : x ∈ testFold inds k) : x ∉ trainFold inds k := by
  unfold testFold at h
  simp only [List.mem_filter, decide_eq_true_eq] at h
  exact h.2

theorem mem_train_or_test {inds : List Nat} {k x : Nat} (h : x ∈ inds) :
    x ∈ trainFold inds k ∨ x ∈ testFold inds k := by
  by_cases ht : x ∈ trainFold inds k
  · exact Or.inl ht
  · right
    unfold testFold
    simp only [List.mem_filter, decide_eq_true_eq]
    exact ⟨h, ht⟩

theorem mem_trainFold_iff_not_test {inds : List Nat} {k x : Nat} :
    x ∈ trainFold inds k ↔ x ∈ inds ∧ x ∉ testFold inds k := by
  constructor
  · intro h
    exact ⟨(trainFold_sublist inds k).subset h,
      fun ht => not_mem_trainFold_of_mem_testFold ht h⟩
  · rintro ⟨hx, hnt⟩
    rcases mem_train_or_test (k := k) hx with h | h
    · exact h
    · exact absurd h hnt

theorem mem_testFold_iff_of_nodup {inds : List Nat} (hnd : inds.Nodup)
    {k x : Nat} :
    x ∈ testFold inds k ↔ ∃ i : Nat, inds[i]? = some x ∧ i % K = k := by
  constructor
  · intro h
    have hx : x ∈ inds := (testFold_sublist inds k).subset h
    have hnt : x ∉ trainFold inds k := not_mem_trainFold_of_mem_testFold h
    obtain ⟨i, hi⟩ := List.mem_iff_getElem?.1 hx
    refine ⟨i, hi, ?_⟩
    by_contra hne
    exact hnt (mem_trainFold.2 ⟨i, hi, hne⟩)
  · rintro ⟨i, hi, hik⟩
    have hx : x ∈ inds := List.mem_iff_getElem?.2 ⟨i, hi⟩
    rcases mem_train_or_test (k := k) hx with ht | ht
    · obtain ⟨j, hj, hjk⟩ := mem_trainFold.1 ht
      have hlen : i < inds.length := (List.getElem?_eq_some.1 hi).1
      have hij : i = j := List.getElem?_inj hlen hnd (hi.trans hj.symm)
      exact absurd (hij ▸ hik) hjk
    · exact ht


theorem exists_unique_test_fold {inds : List Nat} (hnd : inds.Nodup)
    {x : Nat} (hx : x ∈ inds) :
    ∃! k, k < K ∧ x ∈ testFold inds k := by
  obtain ⟨i, hi⟩ := List.mem_iff_getElem?.1 hx
  refine ⟨i % K, ⟨Nat.mod_lt _ (by decide),
    (mem_testFold_iff_of_nodup hnd).2 ⟨i, hi, rfl⟩⟩, ?_⟩
  rintro j ⟨hj, hmem⟩
  obtain ⟨i2, hi2, hi2k⟩ := (mem_testFold_iff_of_nodup hnd).1 hmem
  have hlen : i2 < inds.length := (List.getElem?_eq_some.1 hi2).1
  have : i2 = i := List.getElem?_inj hlen hnd (hi2.trans hi.symm)
  rw [← hi2k, this]

/-- C1: for every fold `k < K` the train and test index lists are disjoint
and together contain every entry of the shuffled index list exactly once;
across folds, every index lies in exactly one test fold and in the train
fold of every other fold. -/
theorem kfold_partition (inds : List Nat) (k : Nat)
    (hnd : inds.Nodup) (_hk : k < K) :
    (∀ x, ¬(x ∈ trainFold inds k ∧ x ∈ testFold inds k)) ∧
    (∀ x, x ∈ inds ↔ (x ∈ trainFold inds k ∨ x ∈ testFold inds k)) ∧
    (trainFold inds k ++ testFold inds k).Nodup ∧
    (∀ x ∈ inds, ∃! j, j < K ∧ x ∈ testFold inds j) ∧
    (∀ x ∈ inds, ∀ j, j < K → x ∉ testFold inds j → x ∈ trainFold inds j) := by
  refine ⟨?_, ?_, ?_, ?_, ?_⟩
  · rintro x ⟨htr, hte⟩
    exact not_mem_trainFold_of_mem_testFold hte htr
  · intro x
    constructor
    · exact mem_train_or_test
    · rintro (h | h)
      · exact (trainFold_sublist inds k).subset h
      · exact (testFold_sublist inds k).subset h
  · exact ((trainFold_sublist inds k).nodup hnd).append
      ((testFold_sublist inds k).nodup hnd)
      (fun a ha hb => not_mem_trainFold_of_mem_testFold hb ha)
  · exact fun x hx => exists_unique_test_fold hnd hx
  · intro x hx j _ hnt
    exact mem_trainFold_iff_not_test.2 ⟨hx, hnt⟩

/-- Witness for `kfold_partition` on a concrete shuffled index list. -/
theorem kfold_partition_witness :
    (∀ x, ¬(x ∈ trainFold [2, 0, 4, 1, 6, 3, 5] 1 ∧
            x ∈ testFold [2, 0, 4, 1, 6, 3, 5] 1)) ∧
    (∀ x, x ∈ [2, 0, 4, 1, 6, 3, 5] ↔
      (x ∈ trainFold [2, 0, 4, 1, 6, 3, 5] 1 ∨
       x ∈ testFold [2, 0, 4, 1, 6, 3, 5] 1)) ∧
    (trainFold [2, 0, 4, 1, 6, 3, 5] 1 ++ testFold [2, 0, 4, 1, 6, 3, 5] 1).Nodup ∧
    (∀ x ∈ [2, 0, 4, 1, 6, 3, 5], ∃! j, j < K ∧ x ∈ testFold [2, 0, 4, 1, 6, 3, 5] j) ∧
    (∀ x ∈ [2, 0, 4, 1, 6, 3, 5], ∀ j, j < K →
      x ∉ testFold [2, 0, 4, 1, 6, 3, 5] j → x ∈ trainFold [2, 0, 4, 1, 6, 3, 5] j) :=
  kfold_partition [2, 0, 4, 1, 6, 3, 5] 1 (by decide) (by decide)


/-! ### correspondence between the manual folds and the library folds -/

theorem kfoldStart_succ_eq (n k : Nat) :
    kfoldStart n (k + 1) = kfoldStart n k + kfoldSize n k := rfl

theorem kfoldStart_mono {n : Nat} : ∀ {k1 k2 : Nat}, k1 ≤ k2 →
    kfoldStart n k1 ≤ kfoldStart n k2 := by
  intro k1 k2 h
  induction k2 with
  | zero => exact Nat.le_of_eq (by cases Nat.le_zero.1 h; rfl)
  | succ m ih =>
    rcases Nat.lt_or_ge k1 (m + 1) with hlt | hge
    · exact le_trans (ih (Nat.lt_succ_iff.1 hlt)) (Nat.le_add_right _ _)
    · cases le_antisymm h hge
      exact le_rfl

theorem kfoldStart_K (n : Nat) : kfoldStart n K = n := by
  show 0 + kfoldSize n 0 + kfoldSize n 1 + kfoldSize n 2 + kfoldSize n 3 +
    kfoldSize n 4 = n
  simp only [kfoldSize, K]
  split_ifs <;> omega

theorem div_lt_kfoldSize {i n : Nat} (h : i < n) :
    i / K < kfoldSize n (i % K) := by
  simp only [kfoldSize, K] at *
  split_ifs <;> omega

theorem mul_add_lt_of_lt_kfoldSize {n k j : Nat} (hk : k < K)
    (hj : j < kfoldSize n k) : K * j + k < n := by
  simp only [kfoldSize, K] at *
  split_ifs at hj <;> omega

theorem kfoldStart_add_lt {n k j : Nat} (hk : k < K)
    (hj : j < kfoldSize n k) : kfoldStart n k + j < n := by
  have h1 : kfoldStart n k + j < kfoldStart n (k + 1) := by
    rw [kfoldStart_succ_eq]
    omega
  have h2 : kfoldStart n (k + 1) ≤ kfoldStart n K := kfoldStart_mono hk
  rw [kfoldStart_K] at h2
  omega

theorem kfoldStart_add_inj {n k1 j1 k2 j2 : Nat}
    (hj1 : j1 < kfoldSize n k1) (hj2 : j2 < kfoldSize n k2)
    (heq : kfoldStart n k1 + j1 = kfoldStart n k2 + j2) :
    k1 = k2 ∧ j1 = j2 := by
  rcases Nat.lt_trichotomy k1 k2 with h | h | h
  · exfalso
    have h1 : kfoldStart n k1 + j1 < kfoldStart n (k1 + 1) := by
      rw [kfoldStart_succ_eq]
      omega
    have h2 : kfoldStart n (k1 + 1) ≤ kfoldStart n k2 := kfoldStart_mono h
    omega
  · cases h
    omega
  · exfalso
    have h1 : kfoldStart n k2 + j2 < kfoldStart n (k2 + 1) := by
      rw [kfoldStart_succ_eq]
      omega
    have h2 : kfoldStart n (k2 + 1) ≤ kfoldStart n k1 := kfoldStart_mono h
    omega

theorem stridedShuffle_length (n : Nat) : (stridedShuffle n).length = n := by
  simp [stridedShuffle]

theorem stridedShuffle_getElem? {n i : Nat} (h : i < n) :
    (stridedShuffle n)[i]? = some (kfoldStart n (i % K) + i / K) := by
  simp [stridedShuffle, List.getElem?_map, List.getElem?_range h]

theorem stridedShuffle_nodup (n : Nat) : (stridedShuffle n).Nodup := by
  refine (List.nodup_range n).map_on ?_
  intro i1 h1 i2 h2 heq
  rw [List.mem_range] at h1 h2
  obtain ⟨e1, e2⟩ :=
    kfoldStart_add_inj (div_lt_kfoldSize h1) (div_lt_kfoldSize h2) heq
  rw [← Nat.div_add_mod i1 K, ← Nat.div_add_mod i2 K, e1, e2]

theorem stridedShuffle_perm (n : Nat) :
    List.Perm (stridedShuffle n) (List.range n) := by
  have hsub : stridedShuffle n ⊆ List.range n := by
    intro x hx
    simp only [stridedShuffle, List.mem_map, List.mem_range] at hx ⊢
    obtain ⟨i, hi, rfl⟩ := hx
    exact kfoldStart_add_lt (Nat.mod_lt _ (by decide)) (div_lt_kfoldSize hi)
  exact (List.subperm_of_subset (stridedShuffle_nodup n) hsub).perm_of_length_le
    (by simp [stridedShuffle_length])

theorem mem_testFold_strided {n k x : Nat} (hk : k < K) :
    x ∈ testFold (stridedShuffle n) k ↔ x ∈ kfoldTest n k := by
  rw [mem_testFold_iff_of_nodup (stridedShuffle_nodup n)]
  unfold kfoldTest
  simp only [List.mem_map, List.mem_range]
  constructor
  · rintro ⟨i, hi, hik⟩
    have hilen : i < n := by
      have h1 := (List.getElem?_eq_some.1 hi).1
      rwa [stridedShuffle_length] at h1
    rw [stridedShuffle_getElem? hilen] at hi
    have hx : kfoldStart n (i % K) + i / K = x := by
      exact Option.some.inj hi
    refine ⟨i / K, ?_, ?_⟩
    · rw [← hik]
      exact div_lt_kfoldSize hilen
    · rw [← hx, hik]
  · rintro ⟨j, hj, rfl⟩
    have hlt : K * j + k < n := mul_add_lt_of_lt_kfoldSize hk hj
    have hmk : (K * j + k) % K = k := by
      simp only [K] at *
      omega
    have hdk : (K * j + k) / K = j := by
      simp only [K] at *
      omega
    refine ⟨K * j + k, ?_, hmk⟩
    rw [stridedShuffle_getElem? hlt, hmk, hdk]

theorem mem_trainFold_strided {n k x : Nat} (hk : k < K) :
    x ∈ trainFold (stridedShuffle n) k ↔ x ∈ kfoldTrain n k := by
  rw [mem_trainFold_iff_not_test]
  unfold kfoldTrain
  simp only [List.mem_filter, List.mem_range, decide_eq_true_eq]
  rw [(stridedShuffle_perm n).mem_iff, List.mem_range, mem_testFold_strided hk]

theorem kfoldTest_nodup (n k : Nat) : (kfoldTest n k).Nodup := by
  refine (List.nodup_range _).map_on ?_
  intro j1 _ j2 _ h
  omega

theorem kfoldTrain_nodup (n k : Nat) : (kfoldTrain n k).Nodup :=
  (List.filter_sublist _).nodup (List.nodup_range n)

theorem testFold_strided_perm {n k : Nat} (hk : k < K) :
    List.Perm (testFold (stridedShuffle n) k) (kfoldTest n k) :=
  (List.perm_ext_iff_of_nodup
    ((testFold_sublist _ _).nodup (stridedShuffle_nodup n))
    (kfoldTest_nodup n k)).2 (fun _ => mem_testFold_strided hk)

theorem trainFold_strided_perm {n k : Nat} (hk : k < K) :
    List.Perm (trainFold (stridedShuffle n) k) (kfoldTrain n k) :=
  (List.perm_ext_iff_of_nodup
    ((trainFold_sublist _ _).nodup (stridedShuffle_nodup n))
    (kfoldTrain_nodup n k)).2 (fun _ => mem_trainFold_strided hk)

/-- C2: the manual loop and `cross_val_score` compute the same procedure up
to the random shuffle: there is a shuffle outcome (a permutation of the row
indices) under which, fold by fold, the manual train/test index sets
coincide with the library folds as sets, and the per-fold scores agree for
every scoring function that does not depend on index order. -/
theorem crossval_equiv_up_to_shuffle {α : Type} (n : Nat)
    (score : List Nat → List Nat → α)
    (hscore : ∀ tr1 tr2 te1 te2, List.Perm tr1 tr2 → List.Perm te1 te2 →
      score tr1 te1 = score tr2 te2) :
    ∃ inds : List Nat, List.Perm inds (List.range n) ∧
      (∀ k, k < K → List.Perm (testFold inds k) (kfoldTest n k) ∧
        List.Perm (trainFold inds k) (kfoldTrain n k)) ∧
      manualFoldScores score inds = crossValScores score n := by
  refine ⟨stridedShuffle n, stridedShuffle_perm n,
    fun k hk => ⟨testFold_strided_perm hk, trainFold_strided_perm hk⟩, ?_⟩
  unfold manualFoldScores crossValScores
  apply List.map_congr_left
  intro k hk
  exact hscore _ _ _ _ (trainFold_strided_perm (List.mem_range.1 hk))
    (testFold_strided_perm (List.mem_range.1 hk))

/-- Witness for `crossval_equiv_up_to_shuffle` with `n = 7` and a concrete
order-insensitive scoring function. -/
theorem crossval_equiv_up_to_shuffle_witness :
    ∃ inds : List Nat, List.Perm inds (List.range 7) ∧
      (∀ k, k < K → List.Perm (testFold inds k) (kfoldTest 7 k) ∧
        List.Perm (trainFold inds k) (kfoldTrain 7 k)) ∧
      manualFoldScores (fun tr te => (tr.length, te.length)) inds =
        crossValScores (fun tr te => (tr.length, te.length)) 7 :=
  crossval_equiv_up_to_shuffle 7 (fun tr te => (tr.length, te.length))
    (fun tr1 tr2 te1 te2 h1 h2 => by
      simp only [h1.length_eq, h2.length_eq])

end Curriculum
